import Mathlib

set_option autoImplicit false

/-!
Shallow embedding of `mctp-estack/src/router.rs` (an asynchronous MCTP
router).  Pure data and control flow is transcribed directly from the Rust
source; collaborators that live outside `src/` (the MCTP `Stack`, the
`Reassembler` header parser, the `Fragmenter`, the SPSC packet queue of
`embassy_sync::zerocopy_channel`) are either parametrised as oracle inputs
or modelled from the specification, as noted on each definition.
-/

namespace MctpRouter

abbrev Eid := Nat
abbrev MsgType := Nat
abbrev TagValue := Nat
abbrev AppCookie := Nat
abbrev PortId := Nat

/-- Modelled from the spec: `MAX_MTU` is a compile-time parameter (§6.5)
defined outside `src/`; its concrete value is not fixed by the router code. -/
def MAX_MTU : Nat := 255

/-- Modelled from the spec: `MAX_PAYLOAD` is a compile-time parameter (§6.5)
defined outside `src/`. -/
def MAX_PAYLOAD : Nat := 1032

/-- `const MAX_LISTENERS: usize = 20` (router.rs:29). -/
def MAX_LISTENERS : Nat := 20

/-- `const MAX_RECEIVERS: usize = 50` (router.rs:30). -/
def MAX_RECEIVERS : Nat := 50

/-- `mctp::Tag`: `Owned` tags were allocated locally, `Unowned` by the peer. -/
inductive Tag where
  | Owned : TagValue → Tag
  | Unowned : TagValue → Tag
deriving DecidableEq, Repr

/-- `Tag::is_owner()`: true exactly for `Owned` tags. -/
def Tag.is_owner : Tag → Bool
  | .Owned _ => true
  | .Unowned _ => false

/-- `mctp::Error`, restricted to the variants the router uses. -/
inductive Error where
  | NoSpace
  | TxFailure
  | BadArgument
  | AddrInUse
  | InternalError
deriving DecidableEq, Repr

/-- Result of parsing the four-byte MCTP common header. -/
structure MctpHeader where
  dest_endpoint_id : Eid
  source_endpoint_id : Eid
deriving DecidableEq, Repr

/-- Modelled from the spec: `Reassembler::header` lives in
`crate::reassemble`, which is not under `src/`.  Per §3 and §4.3.2 a parse
either fails or yields a header carrying the destination and source EIDs;
the MCTP common header is four bytes with the destination EID at offset 1
and the source EID at offset 2. -/
def Reassembler.header (pkt : List Nat) : Option MctpHeader :=
  if 4 ≤ pkt.length then
    some { dest_endpoint_id := pkt.getD 1 0, source_endpoint_id := pkt.getD 2 0 }
  else
    none

/-- `PktBuf` (router.rs:66): the readable view `bytes[0..len]` plus the
destination EID recorded from the packet header. -/
structure PktBuf where
  data : List Nat
  dest : Eid
deriving DecidableEq, Repr

/-- `PktBuf::set` (router.rs:81): parse the header (propagating a parse
failure), length-check the copy against the backing `[u8; MAX_MTU]`
(`Error::NoSpace` when too long), then record bytes, length and the
header's destination EID.  `none` is any error return. -/
def PktBuf.set (data : List Nat) : Option PktBuf :=
  match Reassembler.header data with
  | none => none
  | some hdr =>
      if data.length ≤ MAX_MTU then
        some { data := data, dest := hdr.dest_endpoint_id }
      else
        none

/-- Producer side of one port (router.rs:104): the committed packets of the
SPSC forward queue (oldest first), the queue depth `FORWARD_QUEUE`, and the
configured MTU.  `try_send` of the zerocopy channel yields a slot exactly
when fewer than `cap` packets are committed. -/
structure PortTop where
  queue : List PktBuf
  cap : Nat
  mtu : Nat
deriving DecidableEq, Repr

/-- `PortTop::forward_packet` (router.rs:122).  Checks `pkt.len() > mtu`
(`NoSpace`), then reserves a slot with the non-blocking `try_send`
(`TxFailure` when the ring is full), then `slot.set(pkt).unwrap()` and
commits.  The outer `none` models the `unwrap` diverging when `set` fails;
the source debug-asserts the packet header is valid on entry. -/
def PortTop.forward_packet (s : PortTop) (pkt : List Nat) :
    Option (Except Error Unit × PortTop) :=
  if pkt.length > s.mtu then
    some (.error .NoSpace, s)
  else if s.cap ≤ s.queue.length then
    some (.error .TxFailure, s)
  else
    match PktBuf.set pkt with
    | some b => some (.ok (), { s with queue := s.queue ++ [b] })
    | none => none

/-- Outcome of `stack.receive(pkt)` (an opaque `Stack` collaborator, §6.1):
a completed message with its tag and type, a consumed fragment, or a
reassembly error. -/
inductive ReceiveOutcome where
  | complete (tag : Tag) (typ : MsgType)
  | fragment
  | err
deriving DecidableEq, Repr

/-- Oracle inputs for one `Router::inbound` call: the results the opaque
collaborators return on this packet.  `is_local_dest` and `receive` come
from the stack, `lookup` from `PortLookup::by_eid(dest, Some(port))`,
`numPorts` is `self.ports.len()`, and `forward` is the result of the chosen
port's `forward_packet`. -/
structure InboundEnv where
  is_local_dest : Bool
  receive : ReceiveOutcome
  lookup : Option PortId
  numPorts : Nat
  forward : Except Error Unit

/-- Trace of which branch `Router::inbound` took. -/
inductive InboundAction where
  | parseFailed
  | dispatched (tag : Tag) (typ : MsgType)
  | fragmentConsumed
  | recvError
  | noRoute
  | badPort (p : PortId)
  | forwarded (p : PortId) (r : Except Error Unit)

/-- `Router::inbound` (router.rs:389): parse the header (`None` on
failure), remember the source EID, then branch: local receive (complete /
fragment / error), or route lookup, port bounds check and forward.  Every
branch after a successful parse returns `ret_src`. -/
def Router.inbound (env : InboundEnv) (pkt : List Nat) (_port : PortId) :
    Option Eid × InboundAction :=
  match Reassembler.header pkt with
  | none => (none, .parseFailed)
  | some header =>
    let ret_src := some header.source_endpoint_id
    if env.is_local_dest then
      match env.receive with
      | .complete tag typ => (ret_src, .dispatched tag typ)
      | .fragment => (ret_src, .fragmentConsumed)
      | .err => (ret_src, .recvError)
    else
      match env.lookup with
      | none => (ret_src, .noRoute)
      | some p =>
        if p < env.numPorts then
          (ret_src, .forwarded p env.forward)
        else
          (ret_src, .badPort p)

/-- Listener table (router.rs:325): `MAX_LISTENERS` slots, each either free
or bound to a message type (the waker itself carries no observable data in
this model; wakes are recorded in the dispatch traces). -/
abbrev Listeners := List (Option MsgType)

/-- First index whose slot is bound to `typ`: the `iter_mut().enumerate()`
scan of `Router::incoming_listener` (router.rs:460). -/
def listener_match (typ : MsgType) : Listeners → Option AppCookie
  | [] => none
  | e :: rest =>
      if e == some typ then some 0
      else (listener_match typ rest).map (· + 1)

/-- Observable effects of dispatching one completed local message:
which cookie (if any) was attached with `set_cookie`, whether the handle
was `return_handle`d to the deferred set or `finished_receive`d, which
listener waker was woken, and whether all receive-waiters were woken. -/
structure LocalDispatch where
  set_cookie : Option AppCookie
  returned : Bool
  finished : Bool
  wake_listener : Option AppCookie
  wake_all_receivers : Bool
deriving DecidableEq, Repr

/-- `Router::incoming_listener` (router.rs:452): scan the listener table
for the first slot bound to `typ`; on a match attach the slot index as the
handle's cookie, return the handle to the deferred set and wake that
listener; otherwise `finished_receive` discards the message. -/
def Router.incoming_listener (listeners : Listeners) (typ : MsgType) :
    LocalDispatch :=
  match listener_match typ listeners with
  | some cookie =>
      { set_cookie := some cookie, returned := true, finished := false,
        wake_listener := some cookie, wake_all_receivers := false }
  | none =>
      { set_cookie := none, returned := false, finished := true,
        wake_listener := none, wake_all_receivers := false }

/-- `Router::incoming_response` (router.rs:484): return the handle to the
deferred set and wake all receive-waiters. -/
def Router.incoming_response : LocalDispatch :=
  { set_cookie := none, returned := true, finished := false,
    wake_listener := none, wake_all_receivers := true }

/-- `Router::incoming_local` (router.rs:438): owned tags go to the
listener path, unowned tags to the response path. -/
def Router.incoming_local (listeners : Listeners) (tag : Tag)
    (typ : MsgType) : LocalDispatch :=
  if tag.is_owner then Router.incoming_listener listeners typ
  else Router.incoming_response

/-- First free slot index: the `iter_mut().enumerate().find(|bind|
bind.is_none())` scan of `Router::app_bind` (router.rs:504). -/
def first_free : Listeners → Option Nat
  | [] => none
  | none :: _ => some 0
  | some _ :: rest => (first_free rest).map (· + 1)

/-- `Router::app_bind` (router.rs:492): reject a duplicate type with
`AddrInUse`, otherwise occupy the first free slot and return its index as
the cookie, or fail with `NoSpace` when the table is full. -/
def Router.app_bind (a : Listeners) (typ : MsgType) :
    Except Error AppCookie × Listeners :=
  if a.any (· == some typ) then
    (.error .AddrInUse, a)
  else
    match first_free a with
    | some i => (.ok i, a.set i (some typ))
    | none => (.error .NoSpace, a)

/-- `Router::app_unbind` (router.rs:515): `BadArgument` for an
out-of-range cookie or an already-free slot, otherwise clear the slot. -/
def Router.app_unbind (a : Listeners) (cookie : AppCookie) :
    Except Error Unit × Listeners :=
  match a[cookie]? with
  | none => (.error .BadArgument, a)
  | some none => (.error .BadArgument, a)
  | some (some _) => (.ok (), a.set cookie none)

/-- The listener-table invariant: any message type occurs in at most one
occupied slot. -/
def UniqueTypes (a : Listeners) : Prop :=
  ∀ typ : MsgType, a.count (some typ) ≤ 1

/-- `SendOutput` of one `Fragmenter::fragment` call (collaborator, §6.2). -/
inductive SendOutput where
  | Packet (p : List Nat)
  | Error (err : MctpRouter.Error)
  | Complete
deriving DecidableEq, Repr

/-- The `Fragmenter` collaborator (§6.2), modelled as the script of results
its successive `fragment` calls produce, each paired with the value
`is_done()` reports afterwards, together with its `tag()` and `dest()`. -/
structure Fragmenter where
  steps : List (SendOutput × Bool)
  tag : Tag
  dest : Eid
deriving DecidableEq, Repr

/-- The fragment loop of `PortTop::send_message` (router.rs:173): each
iteration awaits a slot, zeroes its length, sets its destination, lets the
fragmenter write one packet, and commits.  A `Packet` step commits that
packet and exits with `Ok(tag)` when the fragmenter is done; an `Error`
step commits the current zero-length slot and propagates the error.
`Complete` is `unreachable!` in the source and an exhausted script cannot
occur for a real fragmenter; both are mapped to `InternalError` without a
commit. -/
def send_message_loop (dest : Eid) (tag : Tag) :
    List (SendOutput × Bool) → List PktBuf → Except Error Tag × List PktBuf
  | [], q => (.error .InternalError, q)
  | (.Packet p, done) :: rest, q =>
      if done then (.ok tag, q ++ [⟨p, dest⟩])
      else send_message_loop dest tag rest (q ++ [⟨p, dest⟩])
  | (.Error e, _) :: _, q => (.error e, q ++ [⟨[], dest⟩])
  | (.Complete, _) :: _, q => (.error .InternalError, q)

/-- The flatten step of `PortTop::send_message` (router.rs:158): a single
slice is used directly (no length check); otherwise the chunks are
concatenated into the `MAX_PAYLOAD`-capacity flatten buffer,
`extend_from_slice` failing with `NoSpace` when they do not fit. -/
def flatten_chunks (chunks : List (List Nat)) : Except Error (List Nat) :=
  match chunks with
  | [c] => .ok c
  | cs =>
      if cs.flatten.length ≤ MAX_PAYLOAD then .ok cs.flatten
      else .error .NoSpace

/-- `PortTop::send_message` (router.rs:151): flatten the chunks, then run
the fragment loop against the port queue. -/
def PortTop.send_message (frag : Fragmenter) (chunks : List (List Nat))
    (q : List PktBuf) : Except Error Tag × List PktBuf :=
  match flatten_chunks chunks with
  | .error e => (.error e, q)
  | .ok _payload => send_message_loop frag.dest frag.tag frag.steps q

/-- `Router::app_send_message` (router.rs:624): resolve the outbound port
via `lookup.by_eid(eid, None)` (`TxFailure` when absent), bounds-check the
port id against the configured ports (`TxFailure`), then ask the stack to
`start_send` with that port's MTU and run the port's `send_message`.
`mtus` lists the configured ports' MTUs; `start_send` is the stack
collaborator, given the MTU the router passes it.  The second component
records the MTU passed to `start_send`, `none` when it was never
invoked. -/
def Router.app_send_message (lookup : Option PortId) (mtus : List Nat)
    (start_send : Nat → Except Error Fragmenter)
    (chunks : List (List Nat)) (q : List PktBuf) :
    (Except Error Tag × List PktBuf) × Option Nat :=
  match lookup with
  | none => ((.error .TxFailure, q), none)
  | some p =>
    match mtus[p]? with
    | none => ((.error .TxFailure, q), none)
    | some mtu =>
      match start_send mtu with
      | .error e => ((.error e, q), some mtu)
      | .ok frag => (PortTop.send_message frag chunks q, some mtu)

/-- A completed message as `Stack::fetch_message` reports it (§6.1). -/
structure MsgCore where
  payload : List Nat
  source : Eid
  typ : MsgType
  tag : Tag
  ic : Bool
deriving DecidableEq, Repr

/-- One entry of the stack's deferred set: a receive handle, the cookie
attached to it (if any), and the message it refers to. -/
structure Deferred where
  handle : Nat
  cookie : Option AppCookie
  msg : MsgCore
deriving DecidableEq, Repr

/-- Modelled from the spec: `Stack::get_deferred(eid, tag)` (§6.1) looks a
completed message up in the deferred set by its `(eid, tag)` key. -/
def Stack.get_deferred (s : List Deferred) (eid : Eid) (tag : Tag) :
    Option Deferred :=
  s.find? (fun d => d.msg.source == eid && d.msg.tag == tag)

/-- Modelled from the spec: `Stack::get_deferred_bycookie` (§6.1) looks a
completed message up in the deferred set by its attached cookie. -/
def Stack.get_deferred_bycookie (s : List Deferred) (c : AppCookie) :
    Option Deferred :=
  s.find? (fun d => d.cookie == some c)

/-- Modelled from the spec: `Stack::finished_receive` (§6.1) hands the
handle back, removing its message from the deferred set. -/
def Stack.finished_receive (s : List Deferred) (h : Nat) : List Deferred :=
  s.filter (fun d => d.handle != h)

/-- Where one pending `app_recv_message` poll registered its waker. -/
inductive WakerTarget where
  | listenerSlot (c : AppCookie)
  | receiveWakers
deriving DecidableEq, Repr

/-- Result of one poll of the `poll_fn` inside `app_recv_message`:
pending after registering a waker, or ready with the receive result. -/
inductive RecvStep where
  | Pending (w : WakerTarget)
  | Ready (r : Except Error (List Nat × Eid × MsgType × Tag × Bool))
deriving Repr

/-- One poll of `Router::app_recv_message` (router.rs:545): look the
deferred handle up by cookie (listener path) or by `(tag, eid)` (request
path); with no handle, register the waker in the listener slot or the
receive-waiter set and stay pending; with a handle, fetch the message,
fail with `NoSpace` when the payload exceeds the caller's buffer or copy
it out, and in either case `finished_receive` the handle.  The outer
`none` models the `unreachable!` on an invalid cookie/tag_eid
combination. -/
def Router.app_recv_poll (s : List Deferred) (cookie : Option AppCookie)
    (tag_eid : Option (Tag × Eid)) (buflen : Nat) :
    Option (RecvStep × List Deferred) :=
  match cookie, tag_eid with
  | some c, none =>
      match Stack.get_deferred_bycookie s c with
      | none => some (.Pending (.listenerSlot c), s)
      | some d =>
          let r :=
            if buflen < d.msg.payload.length then
              Except.error Error.NoSpace
            else
              .ok (d.msg.payload, d.msg.source, d.msg.typ, d.msg.tag, d.msg.ic)
          some (.Ready r, Stack.finished_receive s d.handle)
  | none, some (tag, eid) =>
      match Stack.get_deferred s eid tag with
      | none => some (.Pending .receiveWakers, s)
      | some d =>
          let r :=
            if buflen < d.msg.payload.length then
              Except.error Error.NoSpace
            else
              .ok (d.msg.payload, d.msg.source, d.msg.typ, d.msg.tag, d.msg.ic)
          some (.Ready r, Stack.finished_receive s d.handle)
  | _, _ => none

/-- `RouterAsyncReqChannel` state (router.rs:707). -/
structure ReqChannelState where
  eid : Eid
  sent_tag : Option Tag
  tag_expires : Bool
deriving DecidableEq, Repr

/-- `RouterAsyncReqChannel::recv` (router.rs:792): without a recorded
`Owned` sent tag, return `BadArgument` before touching the stack or
registering any waker; otherwise poll `app_recv_message` selecting
`(Unowned(tv), eid)`. -/
def RouterAsyncReqChannel.recv (ch : ReqChannelState) (s : List Deferred)
    (buflen : Nat) : Option (RecvStep × List Deferred) :=
  match ch.sent_tag with
  | some (Tag.Owned tv) =>
      Router.app_recv_poll s none (some (Tag.Unowned tv, ch.eid)) buflen
  | _ => some (.Ready (.error .BadArgument), s)

/-! Helper lemmas (shared across the claim theorems). -/

theorem inbound_fst (env : InboundEnv) (pkt : List Nat) (port : PortId) :
    (Router.inbound env pkt port).1 =
      (Reassembler.header pkt).map (·.source_endpoint_id) := by
  obtain ⟨loc, rcv, lkp, np, fwd⟩ := env
  unfold Router.inbound
  cases hh : Reassembler.header pkt with
  | none => rfl
  | some hd =>
    cases loc with
    | true => cases rcv <;> rfl
    | false =>
      cases lkp with
      | none => rfl
      | some p =>
        by_cases hp : p < np <;> simp [hp]

theorem forward_packet_spec (s : PortTop) (pkt : List Nat)
    (hh : (Reassembler.header pkt).isSome) (hm : s.mtu ≤ MAX_MTU) :
    (s.mtu < pkt.length →
        s.forward_packet pkt = some (.error .NoSpace, s)) ∧
    (pkt.length ≤ s.mtu → s.cap ≤ s.queue.length →
        s.forward_packet pkt = some (.error .TxFailure, s)) ∧
    (pkt.length ≤ s.mtu → s.queue.length < s.cap →
        ∃ b : PktBuf, PktBuf.set pkt = some b ∧ b.data = pkt ∧
          s.forward_packet pkt =
            some (.ok (), { s with queue := s.queue ++ [b] })) := by
  refine ⟨?_, ?_, ?_⟩
  · intro h
    simp [PortTop.forward_packet, h]
  · intro h1 h2
    have hnl : ¬ s.mtu < pkt.length := Nat.not_lt.mpr h1
    simp [PortTop.forward_packet, hnl, h2]
  · intro h1 h2
    obtain ⟨hdr, hhdr⟩ := Option.isSome_iff_exists.mp hh
    have hset : PktBuf.set pkt = some ⟨pkt, hdr.dest_endpoint_id⟩ := by
      simp [PktBuf.set, hhdr, Nat.le_trans h1 hm]
    refine ⟨⟨pkt, hdr.dest_endpoint_id⟩, hset, rfl, ?_⟩
    have hnl : ¬ s.mtu < pkt.length := Nat.not_lt.mpr h1
    have hnc : ¬ s.cap ≤ s.queue.length := Nat.not_le.mpr h2
    simp [PortTop.forward_packet, hnl, hnc, hset]

/-! Claim theorems. -/

/-- C1: `Router::inbound` returns `None` exactly when the MCTP header of
the packet fails to parse; for a parseable header it returns the header's
source EID in every outcome (completed local dispatch, fragment consumed,
reassembly error, no route, out-of-range port id, or any `forward_packet`
result), and it never surfaces an error to the caller. -/
theorem inbound_returns_source (env : InboundEnv) (pkt : List Nat)
    (port : PortId) :
    ((Router.inbound env pkt port).1 = none ↔ Reassembler.header pkt = none) ∧
    (∀ h : MctpHeader, Reassembler.header pkt = some h →
      (Router.inbound env pkt port).1 = some h.source_endpoint_id) := by
  constructor
  · rw [inbound_fst]
    exact Option.map_eq_none'
  · intro h hh
    rw [inbound_fst, hh]
    rfl

/-- Witness for C1 at a concrete packet: the header of `[0, 7, 9, 0]`
parses with source EID 9, which inbound returns. -/
theorem inbound_returns_source_witness :
    (Router.inbound ⟨true, .fragment, none, 1, .ok ()⟩ [0, 7, 9, 0] 0).1 =
      some 9 :=
  (inbound_returns_source ⟨true, .fragment, none, 1, .ok ()⟩ [0, 7, 9, 0] 0).2
    ⟨7, 9⟩ (by decide)

/-- C3: `PortTop::forward_packet` rejects a packet longer than the port
MTU with `NoSpace`; otherwise it fails with `TxFailure` when the ring has
no free slot; otherwise it copies the packet's bytes into the reserved
slot, commits it, and returns `Ok`. -/
theorem forward_packet_cases (s : PortTop) (pkt : List Nat)
    (hh : (Reassembler.header pkt).isSome) (hm : s.mtu ≤ MAX_MTU) :
    (s.mtu < pkt.length →
        s.forward_packet pkt = some (.error .NoSpace, s)) ∧
    (pkt.length ≤ s.mtu → s.cap ≤ s.queue.length →
        s.forward_packet pkt = some (.error .TxFailure, s)) ∧
    (pkt.length ≤ s.mtu → s.queue.length < s.cap →
        ∃ b : PktBuf, PktBuf.set pkt = some b ∧ b.data = pkt ∧
          s.forward_packet pkt =
            some (.ok (), { s with queue := s.queue ++ [b] })) :=
  forward_packet_spec s pkt hh hm

/-- Witness for C3: a 4-byte packet on a port with MTU 2 is rejected with
`NoSpace`. -/
theorem forward_packet_cases_witness :
    PortTop.forward_packet ⟨[], 4, 2⟩ [0, 1, 2, 3] =
      some (.error .NoSpace, ⟨[], 4, 2⟩) :=
  (forward_packet_cases ⟨[], 4, 2⟩ [0, 1, 2, 3] (by decide) (by decide)).1
    (by decide)

/-- C4 as stated is false: a packet longer than the port MTU fails with
`NoSpace`, which is neither a success nor a `TxFailure`. -/
theorem forward_packet_error_counterexample :
    PortTop.forward_packet ⟨[], 4, 2⟩ [0, 1, 2, 3, 4] =
      some (.error .NoSpace, ⟨[], 4, 2⟩) ∧
    Error.NoSpace ≠ Error.TxFailure :=
  ⟨rfl, by decide⟩

/-- C4 (amended): every `forward_packet` call either succeeds and appends
exactly the submitted packet to the port queue (in submission order), or
fails — `TxFailure` on a full ring, `NoSpace` on an oversized packet —
leaving the queue unchanged; no error return leaves a partially written or
committed slot. -/
theorem forward_packet_atomic (s : PortTop) (pkt : List Nat)
    (hh : (Reassembler.header pkt).isSome) (hm : s.mtu ≤ MAX_MTU) :
    ∃ r : Except Error Unit × PortTop, s.forward_packet pkt = some r ∧
      ((∃ b : PktBuf, b.data = pkt ∧ r.1 = .ok () ∧
          r.2 = { s with queue := s.queue ++ [b] }) ∨
        ((r.1 = .error .TxFailure ∨ r.1 = .error .NoSpace) ∧ r.2 = s)) := by
  obtain ⟨h1, h2, h3⟩ := forward_packet_spec s pkt hh hm
  by_cases hlen : s.mtu < pkt.length
  · exact ⟨_, h1 hlen, Or.inr ⟨Or.inr rfl, rfl⟩⟩
  · have hlen2 : pkt.length ≤ s.mtu := Nat.not_lt.mp hlen
    by_cases hfull : s.cap ≤ s.queue.length
    · exact ⟨_, h2 hlen2 hfull, Or.inr ⟨Or.inl rfl, rfl⟩⟩
    · obtain ⟨b, _, hdata, hres⟩ := h3 hlen2 (Nat.not_le.mp hfull)
      exact ⟨_, hres, Or.inl ⟨b, hdata, rfl, rfl⟩⟩

/-- Witness for C4 (amended) with a successful commit on an empty ring. -/
theorem forward_packet_atomic_witness :
    (PortTop.forward_packet ⟨[], 1, 64⟩ [0, 1, 2, 3]).isSome := by
  obtain ⟨r, hr, -⟩ :=
    forward_packet_atomic ⟨[], 1, 64⟩ [0, 1, 2, 3] (by decide) (by decide)
  simp [hr]

theorem listener_match_mem (typ : MsgType) (l : Listeners) :
    (some typ ∈ l →
      ∃ i, listener_match typ l = some i ∧ l[i]? = some (some typ)) ∧
    (some typ ∉ l → listener_match typ l = none) := by
  induction l with
  | nil => simp [listener_match]
  | cons e rest ih =>
    constructor
    · intro hmem
      by_cases he : e = some typ
      · exact ⟨0, by simp [listener_match, he], by simp [he]⟩
      · have hmem2 : some typ ∈ rest := by
          rcases List.mem_cons.mp hmem with h | h
          · exact absurd h.symm he
          · exact h
        obtain ⟨i, hi, hget⟩ := ih.1 hmem2
        refine ⟨i + 1, ?_, by simpa using hget⟩
        simp [listener_match, he, hi]
    · intro hmem
      have he : ¬ e = some typ := fun h => hmem (by simp [h])
      have hrest : some typ ∉ rest := fun h => hmem (List.mem_cons_of_mem _ h)
      simp [listener_match, he, ih.2 hrest]

/-- C2: dispatch of a completed local message: with an owned tag and a
listener bound to the type, the slot's index is attached as the cookie,
the handle is returned to the deferred set and that listener's waker is
woken; with an owned tag and no bound listener the handle is
`finished_receive`d (message discarded); with an unowned tag the handle is
returned to the deferred set and all receive-waiters are woken. -/
theorem incoming_local_dispatch (listeners : Listeners) (tag : Tag)
    (typ : MsgType) :
    (tag.is_owner = true → some typ ∈ listeners →
      ∃ i, listeners[i]? = some (some typ) ∧
        Router.incoming_local listeners tag typ =
          { set_cookie := some i, returned := true, finished := false,
            wake_listener := some i, wake_all_receivers := false }) ∧
    (tag.is_owner = true → some typ ∉ listeners →
      Router.incoming_local listeners tag typ =
        { set_cookie := none, returned := false, finished := true,
          wake_listener := none, wake_all_receivers := false }) ∧
    (tag.is_owner = false →
      Router.incoming_local listeners tag typ =
        { set_cookie := none, returned := true, finished := false,
          wake_listener := none, wake_all_receivers := true }) := by
  refine ⟨?_, ?_, ?_⟩
  · intro howner hmem
    obtain ⟨i, hi, hget⟩ := (listener_match_mem typ listeners).1 hmem
    exact ⟨i, hget,
      by simp [Router.incoming_local, howner, Router.incoming_listener, hi]⟩
  · intro howner hmem
    have hnone := (listener_match_mem typ listeners).2 hmem
    simp [Router.incoming_local, howner, Router.incoming_listener, hnone]
  · intro howner
    simp [Router.incoming_local, howner, Router.incoming_response]

/-- Witness for C2: an unowned (response) tag wakes all receive-waiters
and returns the handle to the deferred set. -/
theorem incoming_local_dispatch_witness :
    Router.incoming_local [none, some 5] (Tag.Unowned 1) 5 =
      { set_cookie := none, returned := true, finished := false,
        wake_listener := none, wake_all_receivers := true } :=
  (incoming_local_dispatch [none, some 5] (Tag.Unowned 1) 5).2.2 rfl

theorem first_free_get (a : Listeners) :
    ∀ i, first_free a = some i → a[i]? = some none := by
  induction a with
  | nil => simp [first_free]
  | cons e rest ih =>
    intro i hi
    cases e with
    | none =>
      simp [first_free] at hi
      simp [← hi]
    | some t =>
      simp [first_free] at hi
      obtain ⟨j, hj, rfl⟩ := hi
      simpa using ih j hj

theorem first_free_none (a : Listeners) :
    first_free a = none ↔ ∀ s ∈ a, s ≠ none := by
  induction a with
  | nil => simp [first_free]
  | cons e rest ih =>
    cases e with
    | none => simp [first_free]
    | some t => simp [first_free, ih]

theorem getElem_some_lt (a : Listeners) :
    ∀ (i : Nat) (x : Option MsgType), a[i]? = some x → i < a.length := by
  induction a with
  | nil => intro i x h; simp at h
  | cons e rest ih =>
    intro i x h
    cases i with
    | zero => simp
    | succ j =>
      simp only [List.getElem?_cons_succ] at h
      have := ih j x h
      simpa using Nat.succ_lt_succ this

theorem get_set_self (a : Listeners) :
    ∀ (i : Nat) (x : Option MsgType), i < a.length →
      (a.set i x)[i]? = some x := by
  induction a with
  | nil => intro i x h; simp at h
  | cons e rest ih =>
    intro i x h
    cases i with
    | zero => simp
    | succ j =>
      simp only [List.set_cons_succ, List.getElem?_cons_succ]
      exact ih j x (by simpa using Nat.lt_of_succ_lt_succ (by simpa using h))

theorem set_self_of_get (a : Listeners) :
    ∀ (i : Nat) (x : Option MsgType), a[i]? = some x → a.set i x = a := by
  induction a with
  | nil => intro i x h; simp at h
  | cons e rest ih =>
    intro i x h
    cases i with
    | zero =>
      simp only [List.getElem?_cons_zero, Option.some.injEq] at h
      simp [h]
    | succ j =>
      simp only [List.getElem?_cons_succ] at h
      simp [List.set_cons_succ, ih j x h]

theorem count_set_of_get_none (v x : Option MsgType) (hx : x ≠ none) :
    ∀ (a : Listeners) (i : Nat), a[i]? = some none →
      (a.set i v).count x = a.count x + (if v = x then 1 else 0) := by
  intro a
  induction a with
  | nil => intro i h; simp at h
  | cons e rest ih =>
    intro i h
    cases i with
    | zero =>
      simp only [List.getElem?_cons_zero, Option.some.injEq] at h
      subst h
      simp only [List.set_cons_zero, List.count_cons]
      have hnx : ((none : Option MsgType) == x) = false := by
        simp [Ne.symm hx]
      simp [hnx, beq_iff_eq]
    | succ j =>
      simp only [List.getElem?_cons_succ] at h
      simp only [List.set_cons_succ, List.count_cons, ih j h]
      omega

theorem count_set_none_le (x : Option MsgType) (hx : x ≠ none) :
    ∀ (a : Listeners) (i : Nat), (a.set i none).count x ≤ a.count x := by
  intro a
  induction a with
  | nil => intro i; simp
  | cons e rest ih =>
    intro i
    cases i with
    | zero =>
      simp only [List.set_cons_zero, List.count_cons]
      have hnx : ((none : Option MsgType) == x) = false := by
        simp [Ne.symm hx]
      simp [hnx]
    | succ j =>
      simp only [List.set_cons_succ, List.count_cons]
      have := ih j
      split <;> omega

theorem any_beq_mem (a : Listeners) (typ : MsgType) :
    a.any (· == some typ) = true ↔ some typ ∈ a := by
  simp [List.any_eq_true, beq_iff_eq]

/-- C6: the listener table never carries a message type in two occupied
slots: `app_bind` returns `AddrInUse` on a duplicate type, occupies the
first free slot (returning its index as the cookie) otherwise, and returns
`NoSpace` when all `MAX_LISTENERS` slots are occupied; `app_unbind` only
clears slots; both operations preserve the uniqueness invariant. -/
theorem app_bind_unbind_unique (a : Listeners) (typ : MsgType)
    (cookie : AppCookie) :
    (some typ ∈ a → Router.app_bind a typ = (.error .AddrInUse, a)) ∧
    (some typ ∉ a → ∀ i, first_free a = some i →
      a[i]? = some none ∧
        Router.app_bind a typ = (.ok i, a.set i (some typ))) ∧
    (some typ ∉ a → a.length = MAX_LISTENERS → (∀ s ∈ a, s ≠ none) →
      Router.app_bind a typ = (.error .NoSpace, a)) ∧
    (UniqueTypes a → UniqueTypes (Router.app_bind a typ).2) ∧
    (UniqueTypes a → UniqueTypes (Router.app_unbind a cookie).2) := by
  refine ⟨?_, ?_, ?_, ?_, ?_⟩
  · intro hmem
    have hany : a.any (· == some typ) = true := (any_beq_mem a typ).mpr hmem
    simp [Router.app_bind, hany]
  · intro hmem i hi
    have hany : ¬ a.any (· == some typ) = true :=
      fun h => hmem ((any_beq_mem a typ).mp h)
    exact ⟨first_free_get a i hi, by simp [Router.app_bind, hany, hi]⟩
  · intro hmem _hlen hall
    have hany : ¬ a.any (· == some typ) = true :=
      fun h => hmem ((any_beq_mem a typ).mp h)
    have hff : first_free a = none := (first_free_none a).mpr hall
    simp [Router.app_bind, hany, hff]
  · intro hu
    by_cases hmem : some typ ∈ a
    · have hany : a.any (· == some typ) = true := (any_beq_mem a typ).mpr hmem
      simpa [Router.app_bind, hany] using hu
    · have hany : ¬ a.any (· == some typ) = true :=
        fun h => hmem ((any_beq_mem a typ).mp h)
      cases hff : first_free a with
      | none => simpa [Router.app_bind, hany, hff] using hu
      | some i =>
        have hget := first_free_get a i hff
        have hres : (Router.app_bind a typ).2 = a.set i (some typ) := by
          simp [Router.app_bind, hany, hff]
        rw [hres]
        intro t
        have hcount := count_set_of_get_none (some typ) (some t)
          (by simp) a i hget
        rw [hcount]
        by_cases ht : typ = t
        · subst ht
          have h0 : a.count (some typ) = 0 := List.count_eq_zero.mpr hmem
          simp [h0]
        · have : ¬ (some typ = some t) := by simp [ht]
          simpa [this] using hu t
  · intro hu
    unfold Router.app_unbind
    cases hc : a[cookie]? with
    | none => simpa using hu
    | some e =>
      cases e with
      | none => simpa using hu
      | some t0 =>
        simp only []
        intro t
        exact Nat.le_trans (count_set_none_le (some t) (by simp) a cookie)
          (hu t)

/-- Witness for C6: binding type 3 into a table already holding type 3
fails with `AddrInUse`. -/
theorem app_bind_unbind_unique_witness :
    Router.app_bind [some 3] 3 = (.error .AddrInUse, [some 3]) :=
  (app_bind_unbind_unique [some 3] 3 0).1 (by decide)

/-- C7: when `app_bind` succeeds with cookie `c`, a subsequent
`app_unbind c` succeeds and restores the listener table to exactly its
pre-bind state. -/
theorem app_bind_then_unbind (a : Listeners) (typ : MsgType) (c : AppCookie)
    (a2 : Listeners) (hb : Router.app_bind a typ = (.ok c, a2)) :
    Router.app_unbind a2 c = (.ok (), a) := by
  unfold Router.app_bind at hb
  by_cases hany : a.any (· == some typ) = true
  · simp [hany] at hb
  · rw [if_neg hany] at hb
    cases hff : first_free a with
    | none => rw [hff] at hb; simp at hb
    | some i =>
      rw [hff] at hb
      simp only [Prod.mk.injEq, Except.ok.injEq] at hb
      obtain ⟨rfl, rfl⟩ := hb
      have hget := first_free_get a i hff
      have hlt : i < a.length := getElem_some_lt a i none hget
      have hget2 : (a.set i (some typ))[i]? = some (some typ) :=
        get_set_self a i (some typ) hlt
      unfold Router.app_unbind
      rw [hget2]
      rw [List.set_set, set_self_of_get a i none hget]

/-- Witness for C7: bind type 7 into `[none]`, then unbind cookie 0. -/
theorem app_bind_then_unbind_witness :
    Router.app_unbind [some 7] 0 = (.ok (), [none]) :=
  app_bind_then_unbind [none] 7 0 [some 7] rfl

theorem send_message_loop_packets (dest : Eid) (tag : Tag)
    (ps : List (List Nat)) (rest : List (SendOutput × Bool)) :
    ∀ q : List PktBuf,
      send_message_loop dest tag
        (ps.map (fun p => (SendOutput.Packet p, false)) ++ rest) q =
      send_message_loop dest tag rest
        (q ++ ps.map (fun p => (⟨p, dest⟩ : PktBuf))) := by
  induction ps with
  | nil => intro q; simp
  | cons p ps ih =>
    intro q
    have step : send_message_loop dest tag
        ((SendOutput.Packet p, false) ::
          (ps.map (fun x => (SendOutput.Packet x, false)) ++ rest)) q =
        send_message_loop dest tag
          (ps.map (fun x => (SendOutput.Packet x, false)) ++ rest)
          (q ++ [⟨p, dest⟩]) := by
      simp [send_message_loop]
    simp only [List.map_cons, List.cons_append]
    rw [step, ih]
    simp [List.append_assoc]

/-- C5: `PortTop::send_message` uses a single chunk directly as the
payload; several chunks are concatenated into the flatten buffer, failing
with `NoSpace` exactly when the total exceeds `MAX_PAYLOAD`; the fragment
loop commits one packet per fragmenter step, exits with the fragmenter's
tag when it reports done, and on a fragmenter error commits the current
zero-length slot and propagates the error. -/
theorem send_message_spec (frag : Fragmenter) (chunks : List (List Nat))
    (q : List PktBuf) :
    (∀ c : List Nat, flatten_chunks [c] = .ok c) ∧
    (chunks.length ≠ 1 →
      (flatten_chunks chunks = .error .NoSpace ↔
        MAX_PAYLOAD < chunks.flatten.length) ∧
      (chunks.flatten.length ≤ MAX_PAYLOAD →
        flatten_chunks chunks = .ok chunks.flatten)) ∧
    (∀ (ps : List (List Nat)) (p : List Nat) (pl : List Nat),
      frag.steps = ps.map (fun x => (SendOutput.Packet x, false)) ++
          [(SendOutput.Packet p, true)] →
      flatten_chunks chunks = .ok pl →
      PortTop.send_message frag chunks q =
        (.ok frag.tag,
          q ++ ps.map (fun x => (⟨x, frag.dest⟩ : PktBuf)) ++
            [⟨p, frag.dest⟩])) ∧
    (∀ (ps : List (List Nat)) (e : Error) (b : Bool)
        (rest : List (SendOutput × Bool)) (pl : List Nat),
      frag.steps = ps.map (fun x => (SendOutput.Packet x, false)) ++
          (SendOutput.Error e, b) :: rest →
      flatten_chunks chunks = .ok pl →
      PortTop.send_message frag chunks q =
        (.error e,
          q ++ ps.map (fun x => (⟨x, frag.dest⟩ : PktBuf)) ++
            [⟨[], frag.dest⟩])) := by
  refine ⟨?_, ?_, ?_, ?_⟩
  · intro c
    rfl
  · intro hlen
    have hform : flatten_chunks chunks =
        if chunks.flatten.length ≤ MAX_PAYLOAD then .ok chunks.flatten
        else .error .NoSpace := by
      match chunks, hlen with
      | [], _ => rfl
      | c1 :: c2 :: cs, _ => rfl
    constructor
    · rw [hform]
      by_cases hp : chunks.flatten.length ≤ MAX_PAYLOAD
      · simp [hp, Nat.not_lt.mpr hp]
      · simp [hp, Nat.lt_of_not_le hp]
    · intro hp
      rw [hform, if_pos hp]
  · intro ps p pl hsteps hfl
    unfold PortTop.send_message
    rw [hfl, hsteps, send_message_loop_packets]
    simp [send_message_loop]
  · intro ps e b rest pl hsteps hfl
    unfold PortTop.send_message
    rw [hfl, hsteps, send_message_loop_packets]
    simp [send_message_loop]

/-- Witness for C5: a two-step fragmenter (one middle packet, one final
packet) commits both packets in order and returns its tag. -/
theorem send_message_spec_witness :
    PortTop.send_message
        ⟨[(SendOutput.Packet [1, 2], false), (SendOutput.Packet [3], true)],
          Tag.Owned 2, 9⟩ [[5]] [] =
      (.ok (Tag.Owned 2), [⟨[1, 2], 9⟩, ⟨[3], 9⟩]) := by
  have h := (send_message_spec
      ⟨[(SendOutput.Packet [1, 2], false), (SendOutput.Packet [3], true)],
        Tag.Owned 2, 9⟩ [[5]] []).2.2.1 [[1, 2]] [3] [5] rfl rfl
  simpa using h

/-- C8: `app_send_message` fails with `TxFailure`, without invoking the
stack's `start_send`, when the route lookup returns no port or an
out-of-range port id; otherwise `start_send` is invoked with the resolved
port's MTU and (when it yields a fragmenter) the call returns the result
of that port's `send_message`. -/
theorem app_send_message_routing (lookup : Option PortId) (mtus : List Nat)
    (start_send : Nat → Except Error Fragmenter) (chunks : List (List Nat))
    (q : List PktBuf) :
    (lookup = none →
      Router.app_send_message lookup mtus start_send chunks q =
        ((.error .TxFailure, q), none)) ∧
    (∀ p, lookup = some p → mtus.length ≤ p →
      Router.app_send_message lookup mtus start_send chunks q =
        ((.error .TxFailure, q), none)) ∧
    (∀ p mtu, lookup = some p → mtus[p]? = some mtu →
      (Router.app_send_message lookup mtus start_send chunks q).2 =
        some mtu ∧
      (∀ frag, start_send mtu = .ok frag →
        Router.app_send_message lookup mtus start_send chunks q =
          (PortTop.send_message frag chunks q, some mtu))) := by
  refine ⟨?_, ?_, ?_⟩
  · intro h
    simp [Router.app_send_message, h]
  · intro p hp hlen
    have hget : mtus[p]? = none := List.getElem?_eq_none hlen
    simp [Router.app_send_message, hp, hget]
  · intro p mtu hp hget
    constructor
    · simp only [Router.app_send_message, hp, hget]
      cases start_send mtu <;> rfl
    · intro frag hfrag
      simp [Router.app_send_message, hp, hget, hfrag]

/-- Witness for C8: a lookup miss returns `TxFailure` without invoking
`start_send`. -/
theorem app_send_message_routing_witness :
    Router.app_send_message none [64]
        (fun _ => .error .NoSpace) [[1]] [] =
      ((.error .TxFailure, []), none) :=
  (app_send_message_routing none [64]
    (fun _ => .error .NoSpace) [[1]] []).1 rfl

/-- C9: `RouterAsyncReqChannel::recv` before any successful send (no sent
tag recorded) returns `BadArgument` immediately, without registering any
waker or touching the stack's deferred set; after a send recorded
`Owned(tv)` it polls for exactly a message whose tag is `Unowned(tv)` and
whose source is the channel's remote EID. -/
theorem req_channel_recv (ch : ReqChannelState) (s : List Deferred)
    (buflen : Nat) :
    (ch.sent_tag = none →
      RouterAsyncReqChannel.recv ch s buflen =
        some (.Ready (.error .BadArgument), s)) ∧
    (∀ tv, ch.sent_tag = some (Tag.Owned tv) →
      RouterAsyncReqChannel.recv ch s buflen =
        Router.app_recv_poll s none (some (Tag.Unowned tv, ch.eid)) buflen ∧
      (∀ pl e2 t2 tg ic s2,
        RouterAsyncReqChannel.recv ch s buflen =
          some (.Ready (.ok (pl, e2, t2, tg, ic)), s2) →
        tg = Tag.Unowned tv ∧ e2 = ch.eid)) := by
  constructor
  · intro h
    simp [RouterAsyncReqChannel.recv, h]
  · intro tv h
    have hrec : RouterAsyncReqChannel.recv ch s buflen =
        Router.app_recv_poll s none (some (Tag.Unowned tv, ch.eid)) buflen := by
      simp [RouterAsyncReqChannel.recv, h]
    refine ⟨hrec, ?_⟩
    intro pl e2 t2 tg ic s2 hready
    rw [hrec] at hready
    cases hfind : Stack.get_deferred s ch.eid (Tag.Unowned tv) with
    | none =>
      simp [Router.app_recv_poll, hfind] at hready
    | some d =>
      simp only [Router.app_recv_poll, hfind] at hready
      unfold Stack.get_deferred at hfind
      have hp := List.find?_some hfind
      simp only [Bool.and_eq_true, beq_iff_eq] at hp
      obtain ⟨hsrc, htag⟩ := hp
      by_cases hlen : buflen < d.msg.payload.length
      · simp [hlen] at hready
      · simp only [if_neg hlen, Option.some.injEq, Prod.mk.injEq] at hready
        obtain ⟨hstep, -⟩ := hready
        have : d.msg.payload = pl ∧ d.msg.source = e2 ∧ d.msg.typ = t2 ∧
            d.msg.tag = tg ∧ d.msg.ic = ic := by
          have := hstep
          simp only [RecvStep.Ready.injEq, Except.ok.injEq,
            Prod.mk.injEq] at this
          tauto
        obtain ⟨-, he2, -, htg, -⟩ := this
        exact ⟨htg ▸ htag, he2 ▸ hsrc⟩

/-- Witness for C9: recv on a fresh channel (no sent tag) fails with
`BadArgument` and leaves the deferred set untouched. -/
theorem req_channel_recv_witness :
    RouterAsyncReqChannel.recv ⟨9, none, true⟩ [] 4 =
      some (.Ready (.error .BadArgument), []) :=
  (req_channel_recv ⟨9, none, true⟩ [] 4).1 rfl

/-- C10: when a matching deferred message exists but its payload exceeds
the caller's buffer, the receive poll returns `NoSpace` and the handle is
nevertheless `finished_receive`d: the message leaves the stack's deferred
set, so a retry with a larger buffer cannot retrieve it. -/
theorem app_recv_nospace_consumes (s : List Deferred) (buflen : Nat) :
    (∀ (tag : Tag) (eid : Eid) (d : Deferred),
      Stack.get_deferred s eid tag = some d →
      buflen < d.msg.payload.length →
      Router.app_recv_poll s none (some (tag, eid)) buflen =
        some (.Ready (.error .NoSpace), Stack.finished_receive s d.handle) ∧
      ∀ d2 ∈ Stack.finished_receive s d.handle, d2.handle ≠ d.handle) ∧
    (∀ (c : AppCookie) (d : Deferred),
      Stack.get_deferred_bycookie s c = some d →
      buflen < d.msg.payload.length →
      Router.app_recv_poll s (some c) none buflen =
        some (.Ready (.error .NoSpace), Stack.finished_receive s d.handle) ∧
      ∀ d2 ∈ Stack.finished_receive s d.handle, d2.handle ≠ d.handle) := by
  have hrem : ∀ (h : Nat) (d2 : Deferred),
      d2 ∈ Stack.finished_receive s h → d2.handle ≠ h := by
    intro h d2 hmem
    have := (List.mem_filter.mp hmem).2
    simpa using this
  constructor
  · intro tag eid d hfind hlen
    exact ⟨by simp [Router.app_recv_poll, hfind, hlen],
      fun d2 hm => hrem d.handle d2 hm⟩
  · intro c d hfind hlen
    exact ⟨by simp [Router.app_recv_poll, hfind, hlen],
      fun d2 hm => hrem d.handle d2 hm⟩

/-- Witness for C10: a 3-byte deferred response polled with a 1-byte
buffer returns `NoSpace` and empties the deferred set. -/
theorem app_recv_nospace_consumes_witness :
    Router.app_recv_poll
        [⟨0, none, ⟨[1, 2, 3], 9, 2, Tag.Unowned 1, false⟩⟩] none
        (some (Tag.Unowned 1, 9)) 1 =
      some (.Ready (.error .NoSpace), []) := by
  have h := (app_recv_nospace_consumes
      [⟨0, none, ⟨[1, 2, 3], 9, 2, Tag.Unowned 1, false⟩⟩] 1).1
      (Tag.Unowned 1) 9 ⟨0, none, ⟨[1, 2, 3], 9, 2, Tag.Unowned 1, false⟩⟩
      (by decide) (by decide)
  simpa [Stack.finished_receive] using h.1

end MctpRouter
